import Mathlib

/-!
Verification of the Citronus API documentation repository.

The only executable artifact in the repository is `src/playground.js`, a
browser form handler that posts raw JSON-RPC requests to the public
endpoint.  It is embedded shallowly below: the DOM reads become explicit
input fields, the DOM writes and the outgoing HTTP request become an
explicit effect record, and the browser built-ins `JSON.parse` and
`JSON.stringify` (out-of-scope black boxes) are passed in as function
parameters.

The specification's core components (Signing Engine, Order Validator,
WebSocket Subscription Manager, decimal arithmetic) have no implementation
in the repository; where a claim is about one of them, the component is
modelled from the spec's own words, and each such definition is marked
`Modelled from the spec:`.
-/

namespace Playground

/-- JSON values as produced by `JSON.parse` and consumed by
`JSON.stringify`.  Objects keep their fields in insertion order, matching
JavaScript object semantics. -/
inductive Json where
  | null
  | bool (b : Bool)
  | num (n : ℚ)
  | str (s : String)
  | arr (elems : List Json)
  | obj (fields : List (String × Json))

/-- The user-controlled inputs read by `callApi` from the page: the value
of the `method` select, the `params` textarea and the `reqid` input. -/
structure PlaygroundInput where
  method : String
  paramsText : String
  reqid : String
deriving DecidableEq, Repr

/-- An outgoing HTTP request as assembled by the `fetch` call in
`callApi`. -/
structure HttpRequest where
  url : String
  httpMethod : String
  headers : List (String × String)
  body : String
deriving DecidableEq, Repr

/-- The observable effects of one `callApi` invocation, up to the point
where the request leaves the browser: the string written into the
`requestPreview` element (`none` when it is left untouched), the string
written synchronously into the `responseBox` element before or instead of
sending (`none` when no such write happens), and the list of HTTP
requests issued. -/
structure CallEffects where
  previewWrite : Option String
  responseWrite : Option String
  requests : List HttpRequest
deriving DecidableEq, Repr

/-- The endpoint hard-coded in `src/playground.js`. -/
def jsonrpcUrl : String := "https://api.citronus.com/public/v1/jsonrpc"

/-- The JSON-RPC body object built by `callApi` (step 3 of the source):
fields `jsonrpc`, `method`, `params` in insertion order, with `id` added
only when the trimmed request id is non-empty. -/
def buildBody (method : String) (params : Json) (reqid : String) : Json :=
  Json.obj
    ([("jsonrpc", Json.str "2.0"), ("method", Json.str method), ("params", params)]
      ++ (if reqid = "" then [] else [("id", Json.str reqid)]))

/-- Shallow embedding of `callApi` from `src/playground.js`.  `parse`
stands for `JSON.parse` (returning either the parsed value or the thrown
error rendered as a string) and `stringify` for `JSON.stringify`; both
are browser built-ins the spec declares out of scope.  The JavaScript
truthiness test `paramsText ? JSON.parse(paramsText) : {}` maps the empty
textarea to the empty object without consulting the parser; a parse
failure writes the error into the response box and returns before any
preview write or request. -/
def callApi (parse : String → Except String Json) (stringify : Json → String)
    (inp : PlaygroundInput) : CallEffects :=
  let reqid := inp.reqid.trim
  let parsed : Except String Json :=
    if inp.paramsText = "" then Except.ok (Json.obj []) else parse inp.paramsText
  match parsed with
  | Except.error e =>
      { previewWrite := none
        responseWrite := some ("Params JSON parse error:\n" ++ e)
        requests := [] }
  | Except.ok paramsObj =>
      let bodyStr := stringify (buildBody inp.method paramsObj reqid)
      { previewWrite := some bodyStr
        responseWrite := none
        requests := [{ url := jsonrpcUrl
                       httpMethod := "POST"
                       headers := [("Content-Type", "application/json")]
                       body := bodyStr }] }

/-- Whether a header name is one of the `X-CITRO-*` authentication
headers of the private HTTP surface (the check is by character-level
name prefix). -/
def isCitroHeader (name : String) : Bool :=
  List.isPrefixOf "X-CITRO-".data name.data

/-- Whether a JSON value is an object carrying a field named `id`. -/
def bodyHasId : Json → Bool
  | Json.obj kvs => kvs.any (fun kv => kv.1 == "id")
  | _ => false

end Playground

namespace Citronus


/-- Modelled from the spec: the Decimal Value component ("exact base-10
arithmetic type used for all prices/quantities") which the repository does
not implement.  A decimal is a scaled integer: mantissa `m` at scale `s`
denotes the value `m / 10 ^ s`, matching the wire format's decimal-string
convention (`"100.005"` is `⟨100005, 3⟩`, `"0.007692"` is `⟨7692, 6⟩`). -/
structure Decimal where
  m : ℤ
  s : ℕ
deriving DecidableEq, Repr

/-- The rational value denoted by a decimal. -/
def Decimal.toRat (d : Decimal) : ℚ := (d.m : ℚ) / 10 ^ d.s

/-- Strict positivity of a decimal value. -/
def Decimal.isPos (d : Decimal) : Bool := decide (0 < d.m)

/-- Value-level order on decimals, by cross multiplication. -/
def Decimal.le (a b : Decimal) : Bool := decide (a.m * 10 ^ b.s ≤ b.m * 10 ^ a.s)

/-- Exact product of two decimals (used for the QUOTE notional
`price × amount`). -/
def Decimal.mul (a b : Decimal) : Decimal := ⟨a.m * b.m, a.s + b.s⟩

/-- Whether the value of `d` has at most `p` fractional digits, i.e. is an
integer multiple of `10 ^ (-p)`. -/
def Decimal.fitsPrecision (d : Decimal) (p : ℕ) : Bool :=
  if d.s ≤ p then true else decide (d.m % (10 : ℤ) ^ (d.s - p) = 0)

/-- Whether the value of `a` is an integer multiple of the value of `b`
(the tick-size check), by cross multiplication. -/
def Decimal.isMultipleOf (a b : Decimal) : Bool :=
  decide ((a.m * 10 ^ b.s) % (b.m * 10 ^ a.s) = 0)

/-- Render a decimal back to its wire string at its own scale, e.g.
`⟨7692, 6⟩` to `"0.007692"`. -/
def Decimal.render (d : Decimal) : String :=
  let sign := if d.m < 0 then "-" else ""
  if d.s = 0 then sign ++ Nat.repr d.m.natAbs
  else
    let n := d.m.natAbs
    let digits := Nat.repr (n % 10 ^ d.s)
    let pad := String.mk (List.replicate (d.s - digits.length) '0')
    sign ++ Nat.repr (n / 10 ^ d.s) ++ "." ++ pad ++ digits

/-- Modelled from the spec: the `total→amount` derivation rule of the
Order Validator, `amount = floor(total / price, trade_base_precision)`
("round toward zero, never up"), computed exactly on scaled integers:
`total / price * 10 ^ p = (total.m * 10 ^ (price.s + p)) / (price.m * 10 ^ total.s)`
and the mantissa is the floor of that integer quotient. -/
def divFloorToPrecision (total price : Decimal) (p : ℕ) : Decimal :=
  ⟨(total.m * 10 ^ (price.s + p)) / (price.m * 10 ^ total.s), p⟩

/-- Modelled from the spec: per-symbol MarketMetadata held by the Market
Metadata Cache (precision, tick size, min/max quantity and notional). -/
structure MarketMetadata where
  symbol : String
  trade_base_precision : ℕ
  trade_quote_precision : ℕ
  quote_tick_size : Decimal
  min_order_qty : Decimal
  max_order_qty : Decimal
  min_order_amt : Decimal
  max_order_amt : Decimal
deriving DecidableEq, Repr

/-- Order side. -/
inductive Side where
  | buy
  | sell
deriving DecidableEq, Repr

/-- Order type. -/
inductive OrderType where
  | market
  | limit
  | stop_limit
deriving DecidableEq, Repr

/-- Modelled from the spec: an OrderRequest as handed to the Order
Validator (symbol, side, type, optionally amount in BASE or total in
QUOTE, optional price and stop price). -/
structure OrderRequest where
  symbol : String
  side : Side
  type : OrderType
  amount : Option Decimal
  total : Option Decimal
  price : Option Decimal
  stop_price : Option Decimal
deriving DecidableEq, Repr

/-- The error kinds the Order Validator can produce (a subset of the
spec's error taxonomy). -/
inductive ErrKind where
  | invalid_pair
  | invalid_params
  | invalid_order_value
deriving DecidableEq, Repr

/-- A successful validation outcome: either a fully locally validated
BASE quantity, or a market order whose quantity checks are deferred to
the server because no reference price is known. -/
inductive ValOutcome where
  | validated (baseQty : Decimal)
  | deferred
deriving DecidableEq, Repr

/-- The Market Metadata Cache read operation `get(symbol)`: lookup by the
immutable symbol key. -/
def lookupMarket (cache : List MarketMetadata) (sym : String) : Option MarketMetadata :=
  cache.find? (fun md => md.symbol == sym)

/-- Check 2's predicate: exactly one of amount/total is present. -/
def exactlyOne (a t : Option Decimal) : Bool :=
  (a.isSome && !t.isSome) || (!a.isSome && t.isSome)

/-- A present, strictly positive optional price. -/
def positivePrice : Option Decimal → Bool
  | some p => p.isPos
  | none => false

/-- Whether the order type requires a price (limit and stop-limit). -/
def requiresPrice : OrderType → Bool
  | OrderType.limit => true
  | OrderType.stop_limit => true
  | OrderType.market => false

/-- Check 5's predicate: the price is a multiple of the tick size and has
at most `trade_quote_precision` fractional digits. -/
def priceRuleOk (md : MarketMetadata) : Option Decimal → Bool
  | some p =>
      Decimal.isMultipleOf p md.quote_tick_size &&
      Decimal.fitsPrecision p md.trade_quote_precision
  | none => true

/-- BASE quantity within `[min_order_qty, max_order_qty]`. -/
def qtyWithin (md : MarketMetadata) (q : Decimal) : Bool :=
  Decimal.le md.min_order_qty q && Decimal.le q md.max_order_qty

/-- QUOTE notional within `[min_order_amt, max_order_amt]`. -/
def notionalWithin (md : MarketMetadata) (n : Decimal) : Bool :=
  Decimal.le md.min_order_amt n && Decimal.le n md.max_order_amt

/-- The price used for derivation and notional checks: the order's own
price for limit/stop-limit, the best-effort reference price (if any) for
market orders. -/
def effPrice (refPrice : Option Decimal) (req : OrderRequest) : Option Decimal :=
  if requiresPrice req.type then req.price else refPrice

/-- Checks 6 and 7 on an established BASE quantity `a`: base-precision
fit, quantity bounds, and (when a price is known) notional bounds; the
notional check is deferred to the server when no price is available. -/
def validateQty (md : MarketMetadata) (a : Decimal) (pOpt : Option Decimal) :
    Except ErrKind ValOutcome :=
  if !Decimal.fitsPrecision a md.trade_base_precision then
    Except.error ErrKind.invalid_order_value
  else if !qtyWithin md a then Except.error ErrKind.invalid_order_value
  else
    match pOpt with
    | some p =>
      if !notionalWithin md (Decimal.mul a p) then
        Except.error ErrKind.invalid_order_value
      else Except.ok (ValOutcome.validated a)
    | none => Except.ok (ValOutcome.validated a)

/-- Modelled from the spec: the Order Validator (§4.3 of the spec), which
the repository does not implement.  Checks run in the spec's fixed order:
(1) symbol known in the cache else `invalid_pair`; (2) exactly one of
amount/total else `invalid_params`; (3) positive price required for
limit/stop-limit else `invalid_params`; (4) positive stop price required
for stop-limit else `invalid_params`; (5) price a tick multiple with at
most quote precision digits else `invalid_order_value`; (6) the BASE
amount (given, or derived from total by `divFloorToPrecision`) fits the
base precision else `invalid_order_value`; (7) quantity and notional
within their min/max bounds else `invalid_order_value`.  Market orders
skip the price checks; where no reference price is available their
notional (and, for total-based ones, quantity) checks are deferred to the
server. -/
def validate (cache : List MarketMetadata) (refPrice : Option Decimal)
    (req : OrderRequest) : Except ErrKind ValOutcome :=
  match lookupMarket cache req.symbol with
  | none => Except.error ErrKind.invalid_pair
  | some md =>
    if !exactlyOne req.amount req.total then Except.error ErrKind.invalid_params
    else if requiresPrice req.type && !positivePrice req.price then
      Except.error ErrKind.invalid_params
    else if req.type == OrderType.stop_limit && !positivePrice req.stop_price then
      Except.error ErrKind.invalid_params
    else if requiresPrice req.type && !priceRuleOk md req.price then
      Except.error ErrKind.invalid_order_value
    else
      match req.amount with
      | some a => validateQty md a (effPrice refPrice req)
      | none =>
        match req.total, effPrice refPrice req with
        | some t, some p =>
          validateQty md (divFloorToPrecision t p md.trade_base_precision) (some p)
        | _, _ => Except.ok ValOutcome.deferred

deriving instance DecidableEq for Except

/-- Modelled from the spec: the WebSocket Subscription Manager's channel
registry ("a registry of desired subscriptions (channel key → handler),
independent of connection state", keyed by the locally derived channel
key).  The handler type is abstract.  A channel is active exactly when
its key is in the registry; torn-down channels are absent. -/
structure WsState (H : Type) where
  connected : Bool
  registry : List (String × H)
deriving DecidableEq, Repr

/-- Whether a channel key is registered. -/
def keyRegistered {H : Type} (s : WsState H) (k : String) : Bool :=
  s.registry.any (fun e => e.1 == k)

/-- Modelled from the spec: subscribe adds the channel key and its handler
to the registry and, when connected, emits one subscribe command;
re-subscribing an already-registered key is a no-op ("no duplicate handler
registration, no duplicate ACK side effects").  The second component is
the list of outbound command frames emitted. -/
def subscribe {H : Type} (s : WsState H) (k : String) (h : H) :
    WsState H × List String :=
  if keyRegistered s k then (s, [])
  else
    ({ s with registry := s.registry ++ [(k, h)] },
     if s.connected then ["subscribe." ++ k] else [])

/-- Modelled from the spec: unsubscribe removes the channel from the
registry and, if connected, sends one teardown command; calling it on an
already-inactive (absent) channel is safe and changes nothing. -/
def unsubscribe {H : Type} (s : WsState H) (k : String) :
    WsState H × List String :=
  if keyRegistered s k then
    ({ s with registry := s.registry.filter (fun e => !(e.1 == k)) },
     if s.connected then ["unsubscribe." ++ k] else [])
  else (s, [])

/-- Sample market metadata for concrete validator runs: tick size
`"0.01"`, quote precision 2, base precision 6, wide quantity and notional
bounds. -/
def tickMeta : MarketMetadata :=
  { symbol := "BTC/USDT"
    trade_base_precision := 6
    trade_quote_precision := 2
    quote_tick_size := ⟨1, 2⟩
    min_order_qty := ⟨1, 6⟩
    max_order_qty := ⟨1000000, 0⟩
    min_order_amt := ⟨1, 2⟩
    max_order_amt := ⟨10000000, 0⟩ }

/-- A limit order at price `"100.005"`, off the `"0.01"` tick grid. -/
def tickRejectReq : OrderRequest :=
  { symbol := "BTC/USDT"
    side := Side.buy
    type := OrderType.limit
    amount := some ⟨1, 0⟩
    total := none
    price := some ⟨100005, 3⟩
    stop_price := none }

/-- A limit order at price `"100.00"`, on the `"0.01"` tick grid. -/
def tickAcceptReq : OrderRequest :=
  { symbol := "BTC/USDT"
    side := Side.buy
    type := OrderType.limit
    amount := some ⟨1, 0⟩
    total := none
    price := some ⟨10000, 2⟩
    stop_price := none }

/-- A limit order specifying `total = "500"` at price `"65000"`. -/
def totalReq : OrderRequest :=
  { symbol := "BTC/USDT"
    side := Side.buy
    type := OrderType.limit
    amount := none
    total := some ⟨500, 0⟩
    price := some ⟨65000, 0⟩
    stop_price := none }

end Citronus

namespace Playground

/-- C5: for every user input whose params text parses as JSON, `callApi`
issues exactly one HTTP POST to `https://api.citronus.com/public/v1/jsonrpc`
whose body is the JSON serialization of the object with fields
`jsonrpc = "2.0"`, the selected method and the parsed params (plus `id`
when supplied), and the request preview shows exactly the body string
that is sent. -/
theorem callApi_sends_single_post_of_body (parse : String → Except String Json)
    (stringify : Json → String) (inp : PlaygroundInput) (j : Json)
    (hne : inp.paramsText ≠ "") (hp : parse inp.paramsText = Except.ok j) :
    callApi parse stringify inp =
      { previewWrite := some (stringify (buildBody inp.method j inp.reqid.trim))
        responseWrite := none
        requests := [{ url := jsonrpcUrl
                       httpMethod := "POST"
                       headers := [("Content-Type", "application/json")]
                       body := stringify (buildBody inp.method j inp.reqid.trim) }] } := by
  unfold callApi
  simp only [if_neg hne, hp]

/-- Closed witness for C5 at a concrete input with stub parser and
serializer. -/
theorem callApi_sends_single_post_of_body_witness :
    callApi (fun _ => Except.ok (Json.str "w")) (fun _ => "B")
        ⟨"markets", "1", " 7 "⟩ =
      { previewWrite := some "B"
        responseWrite := none
        requests := [{ url := jsonrpcUrl
                       httpMethod := "POST"
                       headers := [("Content-Type", "application/json")]
                       body := "B" }] } :=
  callApi_sends_single_post_of_body (fun _ => Except.ok (Json.str "w")) (fun _ => "B")
    ⟨"markets", "1", " 7 "⟩ (Json.str "w") (by decide) rfl

/-- C8: for every user input whose params text is non-empty and fails to
parse, `callApi` writes a parse-error message to the response box,
issues no HTTP request and leaves the request preview untouched. -/
theorem callApi_parse_error_no_request (parse : String → Except String Json)
    (stringify : Json → String) (inp : PlaygroundInput) (e : String)
    (hne : inp.paramsText ≠ "") (hp : parse inp.paramsText = Except.error e) :
    callApi parse stringify inp =
      { previewWrite := none
        responseWrite := some ("Params JSON parse error:\n" ++ e)
        requests := [] } := by
  unfold callApi
  simp only [if_neg hne, hp]

/-- Closed witness for C8 at a concrete input with a failing stub
parser. -/
theorem callApi_parse_error_no_request_witness :
    callApi (fun _ => Except.error "bad") (fun _ => "B") ⟨"markets", "x", "1"⟩ =
      { previewWrite := none
        responseWrite := some ("Params JSON parse error:\n" ++ "bad")
        requests := [] } :=
  callApi_parse_error_no_request (fun _ => Except.error "bad") (fun _ => "B")
    ⟨"markets", "x", "1"⟩ "bad" (by decide) rfl

/-- C9: the request body carries an `id` field exactly when the request-id
input is non-empty after trimming (so a whitespace-only id input yields a
body with no `id` field), and an empty params textarea is sent as
`params = \x7b\x7d`, the empty object, present in the body. -/
theorem callApi_id_iff_trimmed_nonempty (parse : String → Except String Json)
    (stringify : Json → String) (inp : PlaygroundInput) (j : Json) :
    (bodyHasId (buildBody inp.method j inp.reqid.trim) = true ↔ inp.reqid.trim ≠ "") ∧
    (inp.paramsText = "" →
      callApi parse stringify inp =
        { previewWrite := some (stringify (buildBody inp.method (Json.obj []) inp.reqid.trim))
          responseWrite := none
          requests := [{ url := jsonrpcUrl
                         httpMethod := "POST"
                         headers := [("Content-Type", "application/json")]
                         body := stringify (buildBody inp.method (Json.obj []) inp.reqid.trim) }] }) := by
  constructor
  · by_cases h : inp.reqid.trim = "" <;>
      simp [bodyHasId, buildBody, h]
  · intro hEmpty
    unfold callApi
    simp only [if_pos hEmpty]

/-- Closed witness for C9: a whitespace-only request id together with an
empty params textarea. -/
theorem callApi_id_iff_trimmed_nonempty_witness :
    (bodyHasId (buildBody "markets" Json.null ("   " : String).trim) = true ↔
        ("   " : String).trim ≠ "") ∧
    (("" : String) = "" →
      callApi (fun _ => Except.error "unused") (fun _ => "B")
          ⟨"markets", "", "   "⟩ =
        { previewWrite := some "B"
          responseWrite := none
          requests := [{ url := jsonrpcUrl
                         httpMethod := "POST"
                         headers := [("Content-Type", "application/json")]
                         body := "B" }] }) :=
  callApi_id_iff_trimmed_nonempty (fun _ => Except.error "unused") (fun _ => "B")
    ⟨"markets", "", "   "⟩ Json.null

/-- C10: every HTTP request issued by `callApi` carries exactly the single
header `Content-Type: application/json`; in particular no `X-CITRO-*`
authentication header or signature is ever transmitted. -/
theorem callApi_request_headers (parse : String → Except String Json)
    (stringify : Json → String) (inp : PlaygroundInput) (r : HttpRequest)
    (h : r ∈ (callApi parse stringify inp).requests) :
    r.headers = [("Content-Type", "application/json")] ∧
    ∀ kv ∈ r.headers, isCitroHeader kv.1 = false := by
  unfold callApi at h
  rcases hp : (if inp.paramsText = "" then Except.ok (Json.obj []) else parse inp.paramsText) with
    e | paramsObj <;> rw [hp] at h
  · simp at h
  · simp only [List.mem_singleton] at h
    subst h
    refine ⟨rfl, ?_⟩
    intro kv hkv
    simp only [List.mem_singleton] at hkv
    subst hkv
    decide

/-- Closed witness for C10 at a concrete input. -/
theorem callApi_request_headers_witness :
    ({ url := jsonrpcUrl
       httpMethod := "POST"
       headers := [("Content-Type", "application/json")]
       body := "B" } : HttpRequest).headers = [("Content-Type", "application/json")] ∧
    ∀ kv ∈ ({ url := jsonrpcUrl
              httpMethod := "POST"
              headers := [("Content-Type", "application/json")]
              body := "B" } : HttpRequest).headers,
      isCitroHeader kv.1 = false :=
  callApi_request_headers (fun _ => Except.ok Json.null) (fun _ => "B")
    ⟨"markets", "1", "1"⟩
    { url := jsonrpcUrl
      httpMethod := "POST"
      headers := [("Content-Type", "application/json")]
      body := "B" }
    (by simp [callApi])

end Playground

namespace Citronus

/-- Auxiliary: the rational value of the total-to-amount derivation is the
spec's `floor(total / price, p)`, i.e. `⌊total/price * 10^p⌋ / 10^p`,
whenever the price mantissa is positive. -/
theorem divFloorToPrecision_toRat (t p : Decimal) (prec : ℕ) (hpos : 0 < p.m) :
    (divFloorToPrecision t p prec).toRat =
      ((⌊t.toRat / p.toRat * 10 ^ prec⌋ : ℤ) : ℚ) / 10 ^ prec := by
  have hD : (0 : ℤ) < p.m * 10 ^ t.s := by positivity
  have harg : t.toRat / p.toRat * 10 ^ prec =
      ((t.m * 10 ^ (p.s + prec) : ℤ) : ℚ) /
        (((p.m * 10 ^ t.s : ℤ).toNat : ℕ) : ℚ) := by
    have h1 : ((p.m : ℚ)) ≠ 0 := by exact_mod_cast hpos.ne'
    have h2 : ((10 : ℚ)) ^ t.s ≠ 0 := by positivity
    have h3 : ((10 : ℚ)) ^ p.s ≠ 0 := by positivity
    have hq : (((p.m * 10 ^ t.s).toNat : ℕ) : ℚ) = (p.m : ℚ) * 10 ^ t.s := by
      exact_mod_cast congrArg (fun z : ℤ => (z : ℚ)) (Int.toNat_of_nonneg hD.le)
    unfold Decimal.toRat
    rw [hq]
    push_cast
    field_simp
    ring
  rw [harg, Rat.floor_intCast_div_natCast]
  unfold divFloorToPrecision Decimal.toRat
  rw [Int.toNat_of_nonneg hD.le]

/-- Auxiliary: the derived amount never exceeds the exact quotient
`total / price` (rounding is never up). -/
theorem divFloorToPrecision_le (t p : Decimal) (prec : ℕ) (hpos : 0 < p.m) :
    (divFloorToPrecision t p prec).toRat ≤ t.toRat / p.toRat := by
  rw [divFloorToPrecision_toRat t p prec hpos]
  have h10 : (0 : ℚ) < 10 ^ prec := by positivity
  rw [div_le_iff₀ h10]
  exact Int.floor_le _

/-- C7: on the channel registry, unsubscribing a channel that is inactive
(absent from the registry) succeeds and leaves the registry-holding state
unchanged while emitting no teardown command, and subscribing a channel
key that is already registered changes nothing and emits no subscribe
command — hence no duplicate handler registration and no duplicate ACK
side effects. -/
theorem ws_subscribe_unsubscribe_idempotent {H : Type} (s : WsState H)
    (k : String) (h : H) :
    (keyRegistered s k = false → unsubscribe s k = (s, [])) ∧
    (keyRegistered s k = true → subscribe s k h = (s, [])) := by
  constructor
  · intro hk
    unfold unsubscribe
    rw [hk]
    rfl
  · intro hk
    unfold subscribe
    rw [hk]
    rfl

/-- Closed witness for C7 with a concrete registry over `Nat` handlers:
unsubscribing an unregistered key is a no-op, and re-subscribing the
registered key `"orderbook.BTC/USDT"` with a different handler is a
no-op. -/
theorem ws_subscribe_unsubscribe_idempotent_witness :
    (unsubscribe (⟨true, [("orderbook.BTC/USDT", 7)]⟩ : WsState Nat) "klines.BTC/USDT.1m" =
      (⟨true, [("orderbook.BTC/USDT", 7)]⟩, [])) ∧
    (subscribe (⟨true, [("orderbook.BTC/USDT", 7)]⟩ : WsState Nat) "orderbook.BTC/USDT" 8 =
      (⟨true, [("orderbook.BTC/USDT", 7)]⟩, [])) :=
  ⟨(ws_subscribe_unsubscribe_idempotent
      (⟨true, [("orderbook.BTC/USDT", 7)]⟩ : WsState Nat) "klines.BTC/USDT.1m" 8).1
      (by decide),
   (ws_subscribe_unsubscribe_idempotent
      (⟨true, [("orderbook.BTC/USDT", 7)]⟩ : WsState Nat) "orderbook.BTC/USDT" 8).2
      (by decide)⟩

/-- Auxiliary: the quantity checks (6 and 7) never produce the
`invalid_pair` kind. -/
theorem validateQty_ne_invalid_pair (md : MarketMetadata) (a : Decimal)
    (pOpt : Option Decimal) :
    validateQty md a pOpt ≠ Except.error ErrKind.invalid_pair := by
  unfold validateQty
  repeat' split
  all_goals simp

/-- C6: the validator's checks run in the spec's fixed order with check 1
first and `invalid_pair` produced by check 1 alone, so a request whose
symbol is missing from the Market Metadata Cache yields `invalid_pair`
regardless of any other violations present; conversely `invalid_pair`
arises only from an unknown symbol. -/
theorem validate_unknown_symbol_iff (cache : List MarketMetadata)
    (refPrice : Option Decimal) (req : OrderRequest) :
    validate cache refPrice req = Except.error ErrKind.invalid_pair ↔
    lookupMarket cache req.symbol = none := by
  unfold validate
  cases hl : lookupMarket cache req.symbol with
  | none => simp
  | some md =>
    simp only
    constructor
    · intro h
      exfalso
      revert h
      repeat' split
      all_goals simp [validateQty_ne_invalid_pair]
    · intro h
      cases h

/-- C3: the validator accepts only when exactly one of amount/total is
present; for a request whose symbol is in the cache, supplying both is
rejected with `invalid_params` and supplying neither is rejected with
`invalid_params`. -/
theorem validate_amount_total_exclusive (cache : List MarketMetadata)
    (refPrice : Option Decimal) (req : OrderRequest) (md : MarketMetadata)
    (hl : lookupMarket cache req.symbol = some md) :
    (∀ o, validate cache refPrice req = Except.ok o →
        exactlyOne req.amount req.total = true) ∧
    (req.amount.isSome = true → req.total.isSome = true →
      validate cache refPrice req = Except.error ErrKind.invalid_params) ∧
    (req.amount = none → req.total = none →
      validate cache refPrice req = Except.error ErrKind.invalid_params) := by
  refine ⟨?_, ?_, ?_⟩
  · intro o h
    by_contra hne
    rw [Bool.not_eq_true] at hne
    unfold validate at h
    rw [hl] at h
    simp [hne] at h
  · intro ha ht
    have he : exactlyOne req.amount req.total = false := by
      simp [exactlyOne, ha, ht]
    unfold validate
    rw [hl]
    simp [he]
  · intro ha ht
    have he : exactlyOne req.amount req.total = false := by
      simp [exactlyOne, ha, ht]
    unfold validate
    rw [hl]
    simp [he]

/-- Closed witness for C3: a known symbol with both amount and total
present, and one with neither, are each rejected with `invalid_params`. -/
theorem validate_amount_total_exclusive_witness :
    validate
      [{ symbol := "BTC/USDT", trade_base_precision := 6, trade_quote_precision := 2
         quote_tick_size := ⟨1, 2⟩, min_order_qty := ⟨1, 6⟩, max_order_qty := ⟨1000000, 0⟩
         min_order_amt := ⟨1, 2⟩, max_order_amt := ⟨10000000, 0⟩ }] none
      { symbol := "BTC/USDT", side := Side.buy, type := OrderType.limit
        amount := some ⟨1, 0⟩, total := some ⟨500, 0⟩
        price := some ⟨10000, 2⟩, stop_price := none } =
      Except.error ErrKind.invalid_params := by
  exact (validate_amount_total_exclusive _ none _
      { symbol := "BTC/USDT", trade_base_precision := 6, trade_quote_precision := 2
        quote_tick_size := ⟨1, 2⟩, min_order_qty := ⟨1, 6⟩, max_order_qty := ⟨1000000, 0⟩
        min_order_amt := ⟨1, 2⟩, max_order_amt := ⟨10000000, 0⟩ }
      (by decide)).2.1 (by decide) (by decide)

/-- C4: for a limit or stop-limit order on a known symbol, the validator
accepts the price only if it is an integer multiple of the symbol's
`quote_tick_size` and has at most `trade_quote_precision` fractional
digits; when that rule fails (and the earlier checks pass) the rejection
kind is `invalid_order_value`.  Concretely, with tick size `"0.01"` the
price `"100.005"` is rejected with `invalid_order_value` and the price
`"100.00"` is accepted. -/
theorem validate_price_tick_rule (cache : List MarketMetadata)
    (refPrice : Option Decimal) (req : OrderRequest) (md : MarketMetadata)
    (p : Decimal)
    (hl : lookupMarket cache req.symbol = some md)
    (ht : requiresPrice req.type = true)
    (hp : req.price = some p) :
    (∀ o, validate cache refPrice req = Except.ok o →
        Decimal.isMultipleOf p md.quote_tick_size = true ∧
        Decimal.fitsPrecision p md.trade_quote_precision = true) ∧
    (exactlyOne req.amount req.total = true →
      positivePrice req.price = true →
      (req.type = OrderType.stop_limit → positivePrice req.stop_price = true) →
      priceRuleOk md req.price = false →
      validate cache refPrice req = Except.error ErrKind.invalid_order_value) ∧
    validate [tickMeta] none tickRejectReq = Except.error ErrKind.invalid_order_value ∧
    validate [tickMeta] none tickAcceptReq = Except.ok (ValOutcome.validated ⟨1, 0⟩) := by
  refine ⟨?_, ?_, by decide, by decide⟩
  · intro o h
    have hrule : priceRuleOk md req.price = true := by
      by_contra hbad
      rw [Bool.not_eq_true] at hbad
      unfold validate at h
      simp only [hl] at h
      rw [ht, hbad] at h
      repeat' split at h
      all_goals simp_all
    rw [hp] at hrule
    simpa [priceRuleOk, Bool.and_eq_true] using hrule
  · intro he hpp hsp hbad
    have h4 : (req.type == OrderType.stop_limit && !positivePrice req.stop_price) = false := by
      by_cases hty : req.type = OrderType.stop_limit
      · simp [hty, hsp hty]
      · have hb : (req.type == OrderType.stop_limit) = false := by
          simpa using hty
        simp [hb]
    unfold validate
    rw [hl, ht]
    simp [he, hpp, hbad, h4]

/-- Closed witness for C4: the accepting run at price `"100.00"`
instantiates the only-if direction, and the two concrete evaluations are
taken from the same instantiation. -/
theorem validate_price_tick_rule_witness :
    (Decimal.isMultipleOf ⟨10000, 2⟩ tickMeta.quote_tick_size = true ∧
      Decimal.fitsPrecision ⟨10000, 2⟩ tickMeta.trade_quote_precision = true) ∧
    validate [tickMeta] none tickRejectReq = Except.error ErrKind.invalid_order_value ∧
    validate [tickMeta] none tickAcceptReq = Except.ok (ValOutcome.validated ⟨1, 0⟩) :=
  ⟨(validate_price_tick_rule [tickMeta] none tickAcceptReq tickMeta ⟨10000, 2⟩
      (by decide) (by decide) (by decide)).1 (ValOutcome.validated ⟨1, 0⟩) (by decide),
   (validate_price_tick_rule [tickMeta] none tickAcceptReq tickMeta ⟨10000, 2⟩
      (by decide) (by decide) (by decide)).2.2⟩

/-- Auxiliary: a successfully validated quantity is exactly the quantity
that was checked. -/
theorem validateQty_ok_eq (md : MarketMetadata) (a : Decimal)
    (pOpt : Option Decimal) (b : Decimal)
    (h : validateQty md a pOpt = Except.ok (ValOutcome.validated b)) : b = a := by
  unfold validateQty at h
  repeat' split at h
  all_goals simp_all

/-- C2: when a limit order on a known symbol specifies `total` (in QUOTE)
rather than `amount`, the validated BASE amount is derived as
`floor(total / price, trade_base_precision)`: its value equals
`⌊total/price * 10^p⌋ / 10^p`, it never exceeds the exact quotient
`total / price` (never rounded up), and in particular for
`total = "500"`, `price = "65000"`, `trade_base_precision = 6` the
derived amount renders as exactly `"0.007692"`. -/
theorem validate_total_derives_floor (cache : List MarketMetadata)
    (refPrice : Option Decimal) (req : OrderRequest) (md : MarketMetadata)
    (t p a : Decimal)
    (hl : lookupMarket cache req.symbol = some md)
    (hty : req.type = OrderType.limit)
    (hta : req.amount = none)
    (htt : req.total = some t)
    (hpr : req.price = some p)
    (hpos : 0 < p.m)
    (hv : validate cache refPrice req = Except.ok (ValOutcome.validated a)) :
    a = divFloorToPrecision t p md.trade_base_precision ∧
    a.toRat = ((⌊t.toRat / p.toRat * 10 ^ md.trade_base_precision⌋ : ℤ) : ℚ) /
      10 ^ md.trade_base_precision ∧
    a.toRat ≤ t.toRat / p.toRat ∧
    Decimal.render (divFloorToPrecision ⟨500, 0⟩ ⟨65000, 0⟩ 6) = "0.007692" := by
  have heff : effPrice refPrice req = some p := by
    simp [effPrice, hty, requiresPrice, hpr]
  have ha : a = divFloorToPrecision t p md.trade_base_precision := by
    unfold validate at hv
    simp only [hl, hta, htt, heff] at hv
    repeat' split at hv
    all_goals first
      | exact validateQty_ok_eq _ _ _ _ hv
      | simp_all
  refine ⟨ha, ?_, ?_, by decide⟩
  · rw [ha]
    exact divFloorToPrecision_toRat t p md.trade_base_precision hpos
  · rw [ha]
    exact divFloorToPrecision_le t p md.trade_base_precision hpos

/-- Closed witness for C2: the validator run on `total = "500"`,
`price = "65000"` over `tickMeta` (base precision 6) validates the BASE
amount `⟨7692, 6⟩`, i.e. `"0.007692"`. -/
theorem validate_total_derives_floor_witness :
    (⟨7692, 6⟩ : Decimal) =
      divFloorToPrecision ⟨500, 0⟩ ⟨65000, 0⟩ tickMeta.trade_base_precision ∧
    (⟨7692, 6⟩ : Decimal).toRat =
      ((⌊(⟨500, 0⟩ : Decimal).toRat / (⟨65000, 0⟩ : Decimal).toRat *
          10 ^ tickMeta.trade_base_precision⌋ : ℤ) : ℚ) /
        10 ^ tickMeta.trade_base_precision ∧
    (⟨7692, 6⟩ : Decimal).toRat ≤
      (⟨500, 0⟩ : Decimal).toRat / (⟨65000, 0⟩ : Decimal).toRat ∧
    Decimal.render (divFloorToPrecision ⟨500, 0⟩ ⟨65000, 0⟩ 6) = "0.007692" :=
  validate_total_derives_floor [tickMeta] none totalReq tickMeta
    ⟨500, 0⟩ ⟨65000, 0⟩ ⟨7692, 6⟩
    (by decide) rfl rfl rfl rfl (by decide) (by decide)

